import Mathlib

/-!
Verification of the toolbar item-grouping logic of `ckeditor5-ui`.

The development shallowly embeds the code of `src/src/toolbar/toolbarview.js`
(classes `ToolbarView` and `DynamicGroupingToolbar`) and of the
`utils.compareArrays` helper from `src/unnamed/part_000`.

Modelling conventions:
* CKEditor `Collection`s become Lean `List`s; `collection.add(x, i)` is
  `List.insertIdx i x`, `collection.add(x)` appends, `collection.remove(x)`
  is `List.erase`, `collection.remove(collection.last)` is `List.dropLast`.
* The DOM geometry read by `areItemsOverflowing` (client rects of the toolbar
  element and of its last child) is abstracted into a `Geometry` oracle: a
  function from the rendered content (the ungrouped items and whether the
  separator/dropdown pair is shown) to the Bool "the last child sticks out".
* The two `while` loops of `updateGrouping` are written with an explicit
  iteration bound (`fuel`).  Each grouping step removes one element from
  `ungroupedItems` and each ungrouping step removes one from `groupedItems`,
  so `length + 1` rounds of fuel always suffice; the `fuel = 0` branch is
  never reached from the entry points used below.
-/

namespace CKEditorUI

/-- Building blocks of the toolbar's `_components` collection: the
`ItemsView` holding the ungrouped items, the `ToolbarSeparatorView`, and the
`groupedItemsDropdown` (toolbarview.js lines 129-130, 702-703, 724-725). -/
inductive Component where
  | itemsView
  | separator
  | dropdown
deriving DecidableEq

/-- Members of the `_focusCycleableItems` collection: either a toolbar item
or the grouped-items dropdown (toolbarview.js lines 767-779). -/
inductive Focusable (α : Type) where
  | item (a : α)
  | dropdown
deriving DecidableEq

/-- The state of a `shouldGroupWhenFull` toolbar: the `items` collection of
`ToolbarView`, the `ungroupedItems`/`groupedItems` split managed by
`DynamicGroupingToolbar`, the `_components` collection, the
`_focusCycleableItems` collection and the `_updateLock` flag. -/
structure ToolbarState (α : Type) where
  items : List α
  ungroupedItems : List α
  groupedItems : List α
  components : List Component
  focusCycleables : List (Focusable α)
  updateLock : Bool
deriving DecidableEq

/-- Abstraction of the DOM measurement performed by `areItemsOverflowing`
(toolbarview.js lines 661-688): given the rendered ungrouped items and
whether the separator/dropdown pair is currently rendered, decide whether
the last child of the toolbar element visually sticks out of the row. -/
abbrev Geometry (α : Type) := List α → Bool → Bool

variable {α : Type}

/-- The `areItemsOverflowing` getter (toolbarview.js lines 661-688): an
empty toolbar cannot overflow; otherwise the answer is a pure function of
the rendered geometry, here the oracle `g`. -/
def areItemsOverflowing (g : Geometry α) (s : ToolbarState α) : Bool :=
  if s.ungroupedItems.isEmpty then false
  else g s.ungroupedItems (!s.groupedItems.isEmpty)

/-- The `_updateFocusCycleableItems` listener (toolbarview.js lines
767-779): clear `_focusCycleableItems`, re-add every ungrouped item, and
append the dropdown when `groupedItems` is nonempty. -/
def updateFocusCycleableItems (s : ToolbarState α) : ToolbarState α :=
  { s with focusCycleables :=
      s.ungroupedItems.map Focusable.item ++
        (if s.groupedItems.isEmpty then [] else [Focusable.dropdown]) }

/-- A `view._components.add( c )` call; the collection's `add` event runs
`_updateFocusCycleableItems` (toolbarview.js lines 509-510). -/
def componentsAdd (c : Component) (s : ToolbarState α) : ToolbarState α :=
  updateFocusCycleableItems { s with components := s.components ++ [c] }

/-- A `view._components.remove( c )` call; the `remove` event runs
`_updateFocusCycleableItems` (toolbarview.js lines 509-510). -/
def componentsRemove (c : Component) (s : ToolbarState α) : ToolbarState α :=
  updateFocusCycleableItems { s with components := s.components.erase c }

/-- A `view._components.remove( view._components.last )` call
(toolbarview.js line 725). -/
def componentsRemoveLast (s : ToolbarState α) : ToolbarState α :=
  updateFocusCycleableItems { s with components := s.components.dropLast }

/-- An `ungroupedItems.add( x, index )` call; the `add` event runs
`_updateFocusCycleableItems` (toolbarview.js lines 505-506, 518). -/
def ungroupedInsert (x : α) (index : Nat) (s : ToolbarState α) : ToolbarState α :=
  updateFocusCycleableItems { s with ungroupedItems := s.ungroupedItems.insertIdx index x }

/-- An `ungroupedItems.remove( ungroupedItems.last )` call (toolbarview.js
line 707); the `remove` event runs `_updateFocusCycleableItems`. -/
def ungroupedRemoveLast (s : ToolbarState α) : ToolbarState α :=
  updateFocusCycleableItems { s with ungroupedItems := s.ungroupedItems.dropLast }

/-- An `ungroupedItems.remove( x )` call (toolbarview.js line 532); the
`remove` event runs `_updateFocusCycleableItems`. -/
def ungroupedErase [DecidableEq α] (x : α) (s : ToolbarState α) : ToolbarState α :=
  updateFocusCycleableItems { s with ungroupedItems := s.ungroupedItems.erase x }

/-- An `ungroupedItems.add( x )` call appending at the end (toolbarview.js
line 721); the `add` event runs `_updateFocusCycleableItems`. -/
def ungroupedAppend (x : α) (s : ToolbarState α) : ToolbarState α :=
  updateFocusCycleableItems { s with ungroupedItems := s.ungroupedItems ++ [x] }

/-- `DynamicGroupingToolbar.groupLastItem` (toolbarview.js lines 698-708).
When `groupedItems` is still empty, the separator and the dropdown are first
appended to `_components`.  Then
`groupedItems.add( ungroupedItems.remove( ungroupedItems.last ), 0 )` runs:
the argument is evaluated first, so the removal from `ungroupedItems` (and
its focus-cycleable refresh) happens before `groupedItems` is extended, and
no event fires for the `groupedItems` insertion itself.  On an empty
`ungroupedItems` the source throws (`Collection#remove( null )`); every
caller guarantees nonemptiness, so that branch is left as the identity.
The `focusTracker.add`/`focusTracker.remove` calls here and in
`ungroupFirstItem` concern only DOM focus bookkeeping and are not part of
the state modelled. -/
def groupLastItem (s : ToolbarState α) : ToolbarState α :=
  match s.ungroupedItems.getLast? with
  | none => s
  | some x =>
    let s₁ := if s.groupedItems.isEmpty
      then componentsAdd Component.dropdown (componentsAdd Component.separator s)
      else s
    let s₂ := ungroupedRemoveLast s₁
    { s₂ with groupedItems := x :: s₂.groupedItems }

/-- `DynamicGroupingToolbar.ungroupFirstItem` (toolbarview.js lines
718-728).  `ungroupedItems.add( groupedItems.remove( groupedItems.first ) )`
removes the first grouped item (no listener on `groupedItems`) and appends
it to `ungroupedItems` (refreshing the focus cycleables); when that empties
`groupedItems`, the dropdown and then the last remaining component (the
separator) are removed from `_components`.  On an empty `groupedItems` the
source throws; every caller guarantees nonemptiness. -/
def ungroupFirstItem (s : ToolbarState α) : ToolbarState α :=
  match s.groupedItems with
  | [] => s
  | x :: rest =>
    let s₁ := ungroupedAppend x { s with groupedItems := rest }
    if rest.isEmpty
      then componentsRemoveLast (componentsRemove Component.dropdown s₁)
      else s₁

/-- The first `while` loop of `updateGrouping` (toolbarview.js lines
599-603): `while ( this.areItemsOverflowing ) { this.groupLastItem();
wereItemsGrouped = true; }`.  The returned Bool is `wereItemsGrouped`.
Each iteration shortens `ungroupedItems`, so the explicit bound
`fuel` terminates the recursion; callers pass enough fuel for the
`fuel = 0` case to be unreachable. -/
def groupLoopAux (g : Geometry α) : Nat → ToolbarState α → ToolbarState α × Bool
  | 0, s => (s, false)
  | fuel + 1, s =>
    if areItemsOverflowing g s then
      ((groupLoopAux g fuel (groupLastItem s)).1, true)
    else (s, false)

/-- The grouping loop of `updateGrouping`, entered with sufficient fuel:
the loop runs at most `ungroupedItems.length` times. -/
def groupLoop (g : Geometry α) (s : ToolbarState α) : ToolbarState α × Bool :=
  groupLoopAux g (s.ungroupedItems.length + 1) s

/-- The inner `while` loop of the ungrouping phase (toolbarview.js lines
610-612): `while ( this.groupedItems.length && !this.areItemsOverflowing )
{ this.ungroupFirstItem(); }`, again with an explicit iteration bound. -/
def ungroupLoopAux (g : Geometry α) : Nat → ToolbarState α → ToolbarState α
  | 0, s => s
  | fuel + 1, s =>
    if !s.groupedItems.isEmpty && !areItemsOverflowing g s then
      ungroupLoopAux g fuel (ungroupFirstItem s)
    else s

/-- The ungrouping loop of `updateGrouping`, entered with sufficient fuel:
the loop runs at most `groupedItems.length` times. -/
def ungroupLoop (g : Geometry α) (s : ToolbarState α) : ToolbarState α :=
  ungroupLoopAux g (s.groupedItems.length + 1) s

/-- `DynamicGroupingToolbar.updateGrouping` (toolbarview.js lines 574-624).
Returns immediately when `_updateLock` is set or when the toolbar element is
detached from the document (`attached = false`).  Otherwise it sets the
lock, groups items while they overflow, optionally runs the ungrouping
phase (only when nothing was grouped in this invocation and `groupedItems`
is nonempty), undoes the last ungroup when it introduced an overflow, and
clears the lock. -/
def updateGrouping (g : Geometry α) (attached : Bool) (s : ToolbarState α) :
    ToolbarState α :=
  if s.updateLock then s
  else if !attached then s
  else
    let s₀ := { s with updateLock := true }
    let p := groupLoop g s₀
    let s₂ :=
      if !p.2 && !p.1.groupedItems.isEmpty then
        let t := ungroupLoop g p.1
        if areItemsOverflowing g t then groupLastItem t else t
      else p.1
    { s₂ with updateLock := false }

/-- The `view.items.on( 'add' )` listener (toolbarview.js lines 514-524)
together with the triggering `view.items.add( x, index )`: the item first
lands in `items`, then the listener routes it into `groupedItems` (when
`index > ungroupedItems.length`) or into `ungroupedItems`, in the latter
case followed by `updateGrouping`.  A CKEditor `Collection` throws on an
index beyond its length, where `List.insertIdx` leaves the list unchanged;
the theorems below therefore assume a valid index where it matters. -/
def onItemAdded (g : Geometry α) (attached : Bool) (x : α) (index : Nat)
    (s : ToolbarState α) : ToolbarState α :=
  let s₀ := { s with items := s.items.insertIdx index x }
  if s₀.ungroupedItems.length < index then
    { s₀ with groupedItems :=
        s₀.groupedItems.insertIdx (index - s₀.ungroupedItems.length) x }
  else
    updateGrouping g attached (ungroupedInsert x index s₀)

/-- The `view.items.on( 'remove' )` listener (toolbarview.js lines 528-538)
together with the triggering `view.items.remove( x )`: the item is removed
from `groupedItems` when present there, otherwise from `ungroupedItems`
when present there, and `updateGrouping` always runs afterwards. -/
def onItemRemoved [DecidableEq α] (g : Geometry α) (attached : Bool) (x : α)
    (s : ToolbarState α) : ToolbarState α :=
  let s₀ := { s with items := s.items.erase x }
  let s₁ :=
    if s₀.groupedItems.contains x then
      { s₀ with groupedItems := s₀.groupedItems.erase x }
    else if s₀.ungroupedItems.contains x then
      ungroupedErase x s₀
    else s₀
  updateGrouping g attached s₁

/-- The state of a freshly constructed `shouldGroupWhenFull` toolbar:
all collections empty except `_components`, which holds the `ItemsView`
(toolbarview.js lines 129-130, 429, 446, 485). -/
def initialState : ToolbarState α :=
  { items := []
    ungroupedItems := []
    groupedItems := []
    components := [Component.itemsView]
    focusCycleables := []
    updateLock := false }

/-- The partition maintained by `DynamicGroupingToolbar`: `items` is the
concatenation of `ungroupedItems` and `groupedItems`. -/
def Partition (s : ToolbarState α) : Prop :=
  s.items = s.ungroupedItems ++ s.groupedItems

/-- The `_components` shape maintained by `groupLastItem` and
`ungroupFirstItem`: the `ItemsView` alone while nothing is grouped, and the
`ItemsView` followed by the separator and the dropdown otherwise. -/
def DropdownInv (s : ToolbarState α) : Prop :=
  s.components =
    if s.groupedItems.isEmpty then [Component.itemsView]
    else [Component.itemsView, Component.separator, Component.dropdown]

/-- The `_focusCycleableItems` contents produced by
`_updateFocusCycleableItems`: the ungrouped items in order, then the
dropdown exactly when `groupedItems` is nonempty. -/
def FocusSynced (s : ToolbarState α) : Prop :=
  s.focusCycleables =
    s.ungroupedItems.map Focusable.item ++
      (if s.groupedItems.isEmpty then [] else [Focusable.dropdown])

/-- A geometry oracle for a toolbar so narrow that any rendered item
overflows the row. -/
def gEverFull : Geometry Nat := fun _ _ => true

/-- A geometry oracle for a toolbar that fits at most two items in its
row. -/
def gWide : Geometry Nat := fun u _ => decide (2 < u.length)

/-- A concrete toolbar holding four ungrouped items, nothing grouped yet. -/
def sFour : ToolbarState Nat :=
  { items := [1, 2, 3, 4]
    ungroupedItems := [1, 2, 3, 4]
    groupedItems := []
    components := [Component.itemsView]
    focusCycleables := [Focusable.item 1, Focusable.item 2, Focusable.item 3, Focusable.item 4]
    updateLock := false }

/-- A concrete toolbar with two ungrouped items and one grouped item. -/
def sMixed : ToolbarState Nat :=
  { items := [1, 2, 3]
    ungroupedItems := [1, 2]
    groupedItems := [3]
    components := [Component.itemsView, Component.separator, Component.dropdown]
    focusCycleables := [Focusable.item 1, Focusable.item 2, Focusable.dropdown]
    updateLock := false }

/-- A toolbar whose `_updateLock` flag is set, as seen by a re-entrant call
to `updateGrouping`. -/
def sLocked : ToolbarState Nat :=
  { initialState with updateLock := true }

/-!
Characterization lemmas for the elementary operations.
-/

lemma areItemsOverflowing_congr (g : Geometry α) {s t : ToolbarState α}
    (hu : s.ungroupedItems = t.ungroupedItems)
    (hg : s.groupedItems.isEmpty = t.groupedItems.isEmpty) :
    areItemsOverflowing g s = areItemsOverflowing g t := by
  simp [areItemsOverflowing, hu, hg]

lemma areItemsOverflowing_setLock (g : Geometry α) (s : ToolbarState α) (b : Bool) :
    areItemsOverflowing g { s with updateLock := b } = areItemsOverflowing g s := rfl

lemma ne_nil_of_overflow {g : Geometry α} {s : ToolbarState α}
    (h : areItemsOverflowing g s = true) : s.ungroupedItems ≠ [] := by
  intro hnil
  simp [areItemsOverflowing, hnil] at h

lemma groupLastItem_of_nil {s : ToolbarState α} (h : s.ungroupedItems = []) :
    groupLastItem s = s := by
  simp [groupLastItem, h]

lemma groupLastItem_eq {s : ToolbarState α} {x : α}
    (h : s.ungroupedItems.getLast? = some x) :
    groupLastItem s =
      { items := s.items
        ungroupedItems := s.ungroupedItems.dropLast
        groupedItems := x :: s.groupedItems
        components :=
          if s.groupedItems.isEmpty
            then s.components ++ [Component.separator, Component.dropdown]
            else s.components
        focusCycleables :=
          s.ungroupedItems.dropLast.map Focusable.item ++
            (if s.groupedItems.isEmpty then [] else [Focusable.dropdown])
        updateLock := s.updateLock } := by
  simp only [groupLastItem, h]
  split <;> simp_all [componentsAdd, ungroupedRemoveLast, updateFocusCycleableItems]

lemma ungroupFirstItem_of_nil {s : ToolbarState α} (h : s.groupedItems = []) :
    ungroupFirstItem s = s := by
  simp [ungroupFirstItem, h]

lemma ungroupFirstItem_eq {s : ToolbarState α} {x : α} {rest : List α}
    (h : s.groupedItems = x :: rest) :
    ungroupFirstItem s =
      { items := s.items
        ungroupedItems := s.ungroupedItems ++ [x]
        groupedItems := rest
        components :=
          if rest.isEmpty
            then (s.components.erase Component.dropdown).dropLast
            else s.components
        focusCycleables :=
          (s.ungroupedItems ++ [x]).map Focusable.item ++
            (if rest.isEmpty then [] else [Focusable.dropdown])
        updateLock := s.updateLock } := by
  simp only [ungroupFirstItem, h]
  split <;>
    simp_all [componentsRemove, componentsRemoveLast, ungroupedAppend,
      updateFocusCycleableItems]

lemma roundtrip_core {s : ToolbarState α} {x : α} {rest : List α}
    (h : s.groupedItems = x :: rest) :
    (groupLastItem (ungroupFirstItem s)).ungroupedItems = s.ungroupedItems ∧
    (groupLastItem (ungroupFirstItem s)).groupedItems = s.groupedItems := by
  have h1 := ungroupFirstItem_eq h
  have hl : (ungroupFirstItem s).ungroupedItems.getLast? = some x := by
    rw [h1]; simp
  have h2 := groupLastItem_eq hl
  rw [h2, h1, h]
  constructor <;> simp

lemma exists_getLast?_of_ne_nil {l : List α} (h : l ≠ []) :
    ∃ x, l.getLast? = some x := by
  cases hl : l.getLast? with
  | none => exact absurd (List.getLast?_eq_none_iff.mp hl) h
  | some x => exact ⟨x, rfl⟩

/-!
Facts about the two `while` loops of `updateGrouping`.
-/

lemma groupLoopAux_no_overflow (g : Geometry α) :
    ∀ (fuel : Nat) (s : ToolbarState α), s.ungroupedItems.length < fuel →
      areItemsOverflowing g ((groupLoopAux g fuel s).1) = false := by
  intro fuel
  induction fuel with
  | zero => intro s h; omega
  | succ n ih =>
    intro s h
    by_cases hov : areItemsOverflowing g s = true
    · have hne : s.ungroupedItems ≠ [] := ne_nil_of_overflow hov
      obtain ⟨x, hx⟩ := exists_getLast?_of_ne_nil hne
      have hpos : 0 < s.ungroupedItems.length := List.length_pos.mpr hne
      have hlen : (groupLastItem s).ungroupedItems.length < s.ungroupedItems.length := by
        rw [groupLastItem_eq hx]
        simp only [List.length_dropLast]
        omega
      simp only [groupLoopAux, hov, if_true]
      exact ih (groupLastItem s) (by omega)
    · simp only [Bool.not_eq_true] at hov
      simp [groupLoopAux, hov]

lemma groupLoop_no_overflow (g : Geometry α) (s : ToolbarState α) :
    areItemsOverflowing g ((groupLoop g s).1) = false :=
  groupLoopAux_no_overflow g _ s (Nat.lt_succ_self _)

lemma groupLoop_snd_false (g : Geometry α) (s : ToolbarState α)
    (h : (groupLoop g s).2 = false) :
    (groupLoop g s).1 = s ∧ areItemsOverflowing g s = false := by
  by_cases hov : areItemsOverflowing g s = true
  · simp [groupLoop, groupLoopAux, hov] at h
  · simp only [Bool.not_eq_true] at hov
    simp [groupLoop, groupLoopAux, hov]

lemma ungroupLoopAux_of_overflow (g : Geometry α) (fuel : Nat) (s : ToolbarState α)
    (h : areItemsOverflowing g s = true) : ungroupLoopAux g fuel s = s := by
  cases fuel <;> simp [ungroupLoopAux, h]

lemma ungroupLoopAux_of_nil (g : Geometry α) (fuel : Nat) (s : ToolbarState α)
    (h : s.groupedItems = []) : ungroupLoopAux g fuel s = s := by
  cases fuel <;> simp [ungroupLoopAux, h]

/-- Safety of the ungrouping phase: starting from a non-overflowing state,
whenever the inner `while` loop stops on an overflow, that overflow was
introduced by the very last `ungroupFirstItem`, so the `groupLastItem`
clean-up (the "undo the last ungroup") restores a non-overflowing state. -/
lemma ungroupLoopAux_safe (g : Geometry α) :
    ∀ (fuel : Nat) (s : ToolbarState α),
      areItemsOverflowing g s = false → s.groupedItems.length < fuel →
      (areItemsOverflowing g (ungroupLoopAux g fuel s) = true →
        areItemsOverflowing g (groupLastItem (ungroupLoopAux g fuel s)) = false) := by
  intro fuel
  induction fuel with
  | zero => intro s _ h; omega
  | succ n ih =>
    intro s hov hlt
    cases hg : s.groupedItems with
    | nil =>
      rw [ungroupLoopAux_of_nil g _ s hg]
      intro habs
      exact absurd habs (by simp [hov])
    | cons x rest =>
      have hstep : ungroupLoopAux g (n + 1) s = ungroupLoopAux g n (ungroupFirstItem s) := by
        simp [ungroupLoopAux, hg, hov]
      have hrest : (ungroupFirstItem s).groupedItems = rest := by
        rw [ungroupFirstItem_eq hg]
      by_cases hov1 : areItemsOverflowing g (ungroupFirstItem s) = true
      · rw [hstep, ungroupLoopAux_of_overflow g n _ hov1]
        intro _
        obtain ⟨hu, hgr⟩ := roundtrip_core hg
        have hcg : (groupLastItem (ungroupFirstItem s)).groupedItems.isEmpty
            = s.groupedItems.isEmpty := by rw [hgr]
        rw [areItemsOverflowing_congr g hu hcg]
        exact hov
      · simp only [Bool.not_eq_true] at hov1
        rw [hstep]
        refine ih (ungroupFirstItem s) hov1 ?_
        rw [hrest]
        have : s.groupedItems.length = rest.length + 1 := by rw [hg]; rfl
        omega

/-- Unfolding of `updateGrouping` on the unlocked, attached path. -/
lemma updateGrouping_unfold (g : Geometry α) (s : ToolbarState α)
    (h : s.updateLock = false) :
    updateGrouping g true s =
      { (if !(groupLoop g { s with updateLock := true }).2 &&
            !(groupLoop g { s with updateLock := true }).1.groupedItems.isEmpty then
           (if areItemsOverflowing g
                 (ungroupLoop g (groupLoop g { s with updateLock := true }).1)
              then groupLastItem
                (ungroupLoop g (groupLoop g { s with updateLock := true }).1)
              else ungroupLoop g (groupLoop g { s with updateLock := true }).1)
         else (groupLoop g { s with updateLock := true }).1)
        with updateLock := false } := by
  simp [updateGrouping, h]

/-- After any unlocked, attached run of `updateGrouping` the toolbar no
longer overflows: the grouping loop only stops on a non-overflowing state,
and the ungrouping phase either stops before any overflow appears or undoes
its last step. -/
lemma updateGrouping_overflow_false (g : Geometry α) (s : ToolbarState α)
    (h : s.updateLock = false) :
    areItemsOverflowing g (updateGrouping g true s) = false := by
  rw [updateGrouping_unfold g s h, areItemsOverflowing_setLock]
  by_cases hc : (!(groupLoop g { s with updateLock := true }).2 &&
      !(groupLoop g { s with updateLock := true }).1.groupedItems.isEmpty) = true
  · rw [if_pos hc]
    have h2 : (groupLoop g { s with updateLock := true }).2 = false := by
      simp only [Bool.and_eq_true, Bool.not_eq_true'] at hc
      exact hc.1
    obtain ⟨hfst, hov0⟩ := groupLoop_snd_false g { s with updateLock := true } h2
    rw [hfst]
    have hsafe := ungroupLoopAux_safe g
      ({ s with updateLock := true } : ToolbarState α).groupedItems.length.succ
      { s with updateLock := true } hov0 (Nat.lt_succ_self _)
    by_cases hovt : areItemsOverflowing g
        (ungroupLoop g { s with updateLock := true }) = true
    · rw [if_pos hovt]
      exact hsafe hovt
    · simp only [Bool.not_eq_true] at hovt
      rw [if_neg (by simp [hovt])]
      exact hovt
  · rw [if_neg hc]
    exact groupLoop_no_overflow g { s with updateLock := true }

/-!
A generic preservation principle: any state predicate that ignores the
`_updateLock` flag and is preserved by `groupLastItem` and
`ungroupFirstItem` is preserved by a whole `updateGrouping` run.
-/

lemma preserved_groupLoopAux (g : Geometry α) (P : ToolbarState α → Prop)
    (hgrp : ∀ t, P t → P (groupLastItem t)) :
    ∀ (fuel : Nat) (s : ToolbarState α), P s → P ((groupLoopAux g fuel s).1) := by
  intro fuel
  induction fuel with
  | zero => intro s hp; exact hp
  | succ n ih =>
    intro s hp
    by_cases hov : areItemsOverflowing g s = true
    · simp only [groupLoopAux, hov, if_true]
      exact ih (groupLastItem s) (hgrp s hp)
    · simp only [Bool.not_eq_true] at hov
      simpa [groupLoopAux, hov] using hp

lemma preserved_ungroupLoopAux (g : Geometry α) (P : ToolbarState α → Prop)
    (hung : ∀ t, P t → P (ungroupFirstItem t)) :
    ∀ (fuel : Nat) (s : ToolbarState α), P s → P (ungroupLoopAux g fuel s) := by
  intro fuel
  induction fuel with
  | zero => intro s hp; exact hp
  | succ n ih =>
    intro s hp
    by_cases hc : (!s.groupedItems.isEmpty && !areItemsOverflowing g s) = true
    · simp only [ungroupLoopAux, hc, if_true]
      exact ih (ungroupFirstItem s) (hung s hp)
    · simpa [ungroupLoopAux, hc] using hp

lemma preserved_updateGrouping (g : Geometry α) (P : ToolbarState α → Prop)
    (hlock : ∀ (t : ToolbarState α) (b : Bool), P t ↔ P { t with updateLock := b })
    (hgrp : ∀ t, P t → P (groupLastItem t))
    (hung : ∀ t, P t → P (ungroupFirstItem t))
    (attached : Bool) (s : ToolbarState α) (hp : P s) :
    P (updateGrouping g attached s) := by
  cases hL : s.updateLock with
  | true => simpa [updateGrouping, hL] using hp
  | false =>
    cases attached with
    | false => simpa [updateGrouping, hL] using hp
    | true =>
      rw [updateGrouping_unfold g s hL]
      rw [← hlock]
      have h₀ : P ({ s with updateLock := true } : ToolbarState α) :=
        (hlock s true).mp hp
      have h₁ : P ((groupLoop g { s with updateLock := true }).1) :=
        preserved_groupLoopAux g P hgrp _ _ h₀
      split
      · have h₂ : P (ungroupLoop g (groupLoop g { s with updateLock := true }).1) :=
          preserved_ungroupLoopAux g P hung _ _ h₁
        split
        · exact hgrp _ h₂
        · exact h₂
      · exact h₁

/-!
The partition invariant: `items = ungroupedItems ++ groupedItems`.
-/

lemma partition_setLock (s : ToolbarState α) (b : Bool) :
    Partition s ↔ Partition { s with updateLock := b } := Iff.rfl

lemma partition_groupLastItem {s : ToolbarState α} (hp : Partition s) :
    Partition (groupLastItem s) := by
  by_cases hne : s.ungroupedItems = []
  · rwa [groupLastItem_of_nil hne]
  · obtain ⟨x, hx⟩ := exists_getLast?_of_ne_nil hne
    rw [Partition] at hp ⊢
    rw [groupLastItem_eq hx]
    simp only
    have key : s.ungroupedItems.dropLast ++ [x] = s.ungroupedItems :=
      List.dropLast_append_getLast? x (Option.mem_def.mpr hx)
    rw [hp]
    conv_lhs => rw [← key]
    rw [List.append_assoc]
    rfl

lemma partition_ungroupFirstItem {s : ToolbarState α} (hp : Partition s) :
    Partition (ungroupFirstItem s) := by
  cases hg : s.groupedItems with
  | nil => rwa [ungroupFirstItem_of_nil hg]
  | cons x rest =>
    rw [Partition] at hp ⊢
    rw [ungroupFirstItem_eq hg]
    simp only
    rw [hp, hg, List.append_assoc]
    rfl

lemma partition_updateGrouping (g : Geometry α) (attached : Bool)
    {s : ToolbarState α} (hp : Partition s) :
    Partition (updateGrouping g attached s) :=
  preserved_updateGrouping g Partition partition_setLock
    (fun _ => partition_groupLastItem) (fun _ => partition_ungroupFirstItem)
    attached s hp

lemma insertIdx_append_of_le {β : Type} (x : β) :
    ∀ (l₁ l₂ : List β) (n : Nat), n ≤ l₁.length →
      (l₁ ++ l₂).insertIdx n x = l₁.insertIdx n x ++ l₂ := by
  intro l₁
  induction l₁ with
  | nil =>
    intro l₂ n h
    have : n = 0 := by simpa using h
    subst this
    simp
  | cons a t ih =>
    intro l₂ n h
    cases n with
    | zero => simp
    | succ m =>
      simp only [List.cons_append, List.insertIdx_succ_cons]
      rw [ih l₂ m (by simpa using h)]

lemma insertIdx_append_of_ge {β : Type} (x : β) :
    ∀ (l₁ l₂ : List β) (n : Nat), l₁.length ≤ n →
      (l₁ ++ l₂).insertIdx n x = l₁ ++ l₂.insertIdx (n - l₁.length) x := by
  intro l₁
  induction l₁ with
  | nil => intro l₂ n _; simp
  | cons a t ih =>
    intro l₂ n h
    cases n with
    | zero => simp at h
    | succ m =>
      simp only [List.cons_append, List.insertIdx_succ_cons, List.length_cons]
      rw [ih l₂ m (by simpa using h), Nat.succ_sub_succ]

lemma partition_onItemAdded [DecidableEq α] (g : Geometry α) (attached : Bool)
    (x : α) (index : Nat) {s : ToolbarState α} (hp : Partition s) :
    Partition (onItemAdded g attached x index s) := by
  rw [Partition] at hp
  by_cases hidx : s.ungroupedItems.length < index
  · simp only [onItemAdded, if_pos hidx]
    rw [Partition]
    simp only
    rw [hp, insertIdx_append_of_ge x _ _ _ (Nat.le_of_lt hidx)]
  · simp only [onItemAdded, if_neg hidx]
    refine partition_updateGrouping g attached ?_
    rw [Partition]
    simp only [ungroupedInsert, updateFocusCycleableItems]
    rw [hp, insertIdx_append_of_le x _ _ _ (Nat.le_of_not_lt hidx)]

lemma erase_ne_nil_of_ne_singleton [DecidableEq α] {l : List α} {x : α}
    (hmem : x ∈ l) (hne : l ≠ [x]) : l.erase x ≠ [] := by
  match l with
  | [] => simp at hmem
  | [y] =>
    have : x = y := by simpa using hmem
    exact absurd (by rw [this]) hne
  | y :: z :: t =>
    have hlen : ((y :: z :: t).erase x).length = (y :: z :: t).length - 1 :=
      List.length_erase_of_mem hmem
    intro habs
    rw [habs] at hlen
    simp at hlen

lemma onItemRemoved_grouped [DecidableEq α] (g : Geometry α) (attached : Bool)
    {x : α} {s : ToolbarState α} (hxg : s.groupedItems.contains x = true) :
    onItemRemoved g attached x s =
      updateGrouping g attached
        { s with items := s.items.erase x,
                 groupedItems := s.groupedItems.erase x } := by
  have hm : x ∈ s.groupedItems := by simpa using hxg
  simp only [onItemRemoved]
  rw [if_pos (by simpa using hm)]

lemma onItemRemoved_ungrouped [DecidableEq α] (g : Geometry α) (attached : Bool)
    {x : α} {s : ToolbarState α} (hxg : s.groupedItems.contains x = false)
    (hxu : s.ungroupedItems.contains x = true) :
    onItemRemoved g attached x s =
      updateGrouping g attached
        (ungroupedErase x { s with items := s.items.erase x }) := by
  have hmg : x ∉ s.groupedItems := by simpa using hxg
  have hmu : x ∈ s.ungroupedItems := by simpa using hxu
  simp only [onItemRemoved]
  rw [if_neg (by simpa using hmg), if_pos (by simpa using hmu)]

lemma onItemRemoved_absent [DecidableEq α] (g : Geometry α) (attached : Bool)
    {x : α} {s : ToolbarState α} (hxg : s.groupedItems.contains x = false)
    (hxu : s.ungroupedItems.contains x = false) :
    onItemRemoved g attached x s =
      updateGrouping g attached { s with items := s.items.erase x } := by
  have hmg : x ∉ s.groupedItems := by simpa using hxg
  have hmu : x ∉ s.ungroupedItems := by simpa using hxu
  simp only [onItemRemoved]
  rw [if_neg (by simpa using hmg), if_neg (by simpa using hmu)]

lemma partition_onItemRemoved [DecidableEq α] (g : Geometry α) (attached : Bool)
    (x : α) {s : ToolbarState α} (hp : Partition s) (hnd : s.items.Nodup) :
    Partition (onItemRemoved g attached x s) := by
  rw [Partition] at hp
  by_cases hxg : s.groupedItems.contains x = true
  · have hxg2 : x ∈ s.groupedItems := by simpa using hxg
    have hdisj : s.ungroupedItems.Disjoint s.groupedItems :=
      List.disjoint_of_nodup_append (by rwa [hp] at hnd)
    have hxu : x ∉ s.ungroupedItems := fun hmem => hdisj hmem hxg2
    rw [onItemRemoved_grouped g attached hxg]
    refine partition_updateGrouping g attached ?_
    rw [Partition]
    simp only
    rw [hp, List.erase_append_right _ hxu]
  · have hxg3 : s.groupedItems.contains x = false := by simpa using hxg
    by_cases hxu : s.ungroupedItems.contains x = true
    · have hxu2 : x ∈ s.ungroupedItems := by simpa using hxu
      rw [onItemRemoved_ungrouped g attached hxg3 hxu]
      refine partition_updateGrouping g attached ?_
      rw [Partition]
      simp only [ungroupedErase, updateFocusCycleableItems]
      rw [hp, List.erase_append_left _ hxu2]
    · have hxu3 : s.ungroupedItems.contains x = false := by simpa using hxu
      have hxg2 : x ∉ s.groupedItems := by simpa using hxg3
      have hxu2 : x ∉ s.ungroupedItems := by simpa using hxu3
      have hxi : x ∉ s.items := by
        rw [hp]
        simp [hxu2, hxg2]
      rw [onItemRemoved_absent g attached hxg3 hxu3]
      refine partition_updateGrouping g attached ?_
      rw [Partition]
      simp only
      rw [List.erase_of_not_mem hxi, hp]

/-!
The separator/dropdown shape of `_components`.
-/

lemma dropdownInv_setLock (s : ToolbarState α) (b : Bool) :
    DropdownInv s ↔ DropdownInv { s with updateLock := b } := Iff.rfl

lemma dropdownInv_initial : DropdownInv (initialState : ToolbarState α) := rfl

lemma dropdownInv_groupLastItem {s : ToolbarState α} (h : DropdownInv s) :
    DropdownInv (groupLastItem s) := by
  by_cases hne : s.ungroupedItems = []
  · rwa [groupLastItem_of_nil hne]
  · obtain ⟨x, hx⟩ := exists_getLast?_of_ne_nil hne
    rw [DropdownInv] at h ⊢
    rw [groupLastItem_eq hx]
    simp only
    cases hg : s.groupedItems.isEmpty <;> simp [hg] at h ⊢ <;> simp [h]

lemma dropdownInv_ungroupFirstItem {s : ToolbarState α} (h : DropdownInv s) :
    DropdownInv (ungroupFirstItem s) := by
  cases hgr : s.groupedItems with
  | nil => rwa [ungroupFirstItem_of_nil hgr]
  | cons x rest =>
    rw [DropdownInv] at h ⊢
    rw [hgr] at h
    simp only [List.isEmpty_cons, if_false, Bool.false_eq_true] at h
    rw [ungroupFirstItem_eq hgr]
    simp only
    cases hrest : rest with
    | nil => rw [h]; rfl
    | cons y t => simp [h]

lemma dropdownInv_updateGrouping (g : Geometry α) (attached : Bool)
    {s : ToolbarState α} (h : DropdownInv s) :
    DropdownInv (updateGrouping g attached s) :=
  preserved_updateGrouping g DropdownInv dropdownInv_setLock
    (fun _ => dropdownInv_groupLastItem) (fun _ => dropdownInv_ungroupFirstItem)
    attached s h

lemma dropdownInv_onItemAdded [DecidableEq α] (g : Geometry α) (attached : Bool)
    (x : α) (index : Nat) {s : ToolbarState α} (h : DropdownInv s) :
    DropdownInv (onItemAdded g attached x index s) := by
  by_cases hidx : s.ungroupedItems.length < index
  · simp only [onItemAdded, if_pos hidx]
    rw [DropdownInv] at h ⊢
    simp only
    cases hg : s.groupedItems with
    | nil =>
      obtain ⟨m, hm⟩ : ∃ m, index - s.ungroupedItems.length = m + 1 :=
        ⟨index - s.ungroupedItems.length - 1, by omega⟩
      rw [hg] at h
      simp only [hg, hm, List.insertIdx_succ_nil]
      simpa using h
    | cons y t =>
      have hne : (y :: t).insertIdx (index - s.ungroupedItems.length) x ≠ [] := by
        intro habs
        have hlen := congrArg List.length habs
        have hge := List.length_le_length_insertIdx (y :: t) x
          (index - s.ungroupedItems.length)
        rw [habs] at hge
        simp at hge
      have hne2 : ((y :: t).insertIdx (index - s.ungroupedItems.length) x).isEmpty
          = false := by simpa using hne
      rw [hg] at h
      simp only [List.isEmpty_cons, if_false, Bool.false_eq_true] at h
      simp [hg, hne2, h]
  · simp only [onItemAdded, if_neg hidx]
    refine dropdownInv_updateGrouping g attached ?_
    rw [DropdownInv] at h ⊢
    simpa [ungroupedInsert, updateFocusCycleableItems] using h

lemma dropdownInv_onItemRemoved [DecidableEq α] (g : Geometry α) (attached : Bool)
    (x : α) {s : ToolbarState α} (h : DropdownInv s)
    (hne : s.groupedItems ≠ [x]) :
    DropdownInv (onItemRemoved g attached x s) := by
  by_cases hxg : s.groupedItems.contains x = true
  · have hmem : x ∈ s.groupedItems := by simpa using hxg
    have hgne : s.groupedItems ≠ [] := List.ne_nil_of_mem hmem
    have hgne2 : s.groupedItems.isEmpty = false := by simpa using hgne
    have herase : s.groupedItems.erase x ≠ [] :=
      erase_ne_nil_of_ne_singleton hmem hne
    have herase2 : (s.groupedItems.erase x).isEmpty = false := by simpa using herase
    rw [onItemRemoved_grouped g attached hxg]
    refine dropdownInv_updateGrouping g attached ?_
    rw [DropdownInv] at h ⊢
    simp only [hgne2, if_false, Bool.false_eq_true] at h
    simp [herase2, h]
  · have hxg3 : s.groupedItems.contains x = false := by simpa using hxg
    by_cases hxu : s.ungroupedItems.contains x = true
    · rw [onItemRemoved_ungrouped g attached hxg3 hxu]
      refine dropdownInv_updateGrouping g attached ?_
      rw [DropdownInv] at h ⊢
      simpa [ungroupedErase, updateFocusCycleableItems] using h
    · have hxu3 : s.ungroupedItems.contains x = false := by simpa using hxu
      rw [onItemRemoved_absent g attached hxg3 hxu3]
      refine dropdownInv_updateGrouping g attached ?_
      rw [DropdownInv] at h ⊢
      simpa using h

/-- A single `_updateFocusCycleableItems` run leaves the focus-cycleable
collection in sync with the current `ungroupedItems` and `groupedItems`. -/
lemma focusSynced_updateFocusCycleableItems (s : ToolbarState α) :
    FocusSynced (updateFocusCycleableItems s) := rfl

/-!
The resize-observer callback installed by `enableGroupingOnResize`
(toolbarview.js lines 636-653).
-/

/-- One run of the resize-observer callback:
`if ( !previousWidth || previousWidth !== entry.contentRect.width ) {
this.updateGrouping(); previousWidth = entry.contentRect.width; }`.
`previousWidth` starts out `undefined` (`none`); the JS falsiness test
`!previousWidth` is true both for `undefined` and for a recorded width of
`0`.  Returns the updated `previousWidth` and whether `updateGrouping` was
invoked. -/
def resizeStep (previousWidth : Option Nat) (width : Nat) : Option Nat × Bool :=
  if previousWidth.getD 0 = 0 ∨ previousWidth ≠ some width then (some width, true)
  else (previousWidth, false)

/-- Folds the resize-observer callback over a sequence of observed entry
widths, returning for each entry whether `updateGrouping` was invoked. -/
def processEntries (previousWidth : Option Nat) : List Nat → List Bool
  | [] => []
  | w :: ws =>
    (resizeStep previousWidth w).2 :: processEntries (resizeStep previousWidth w).1 ws

/-!
`ToolbarView.fillFromConfig` (toolbarview.js lines 266-297).
-/

/-- The views `fillFromConfig` can put into `items`: the
`ToolbarSeparatorView` created for a `"|"` entry, or a component created by
the factory for a known name. -/
inductive ConfigView where
  | separator
  | component (name : String)
deriving DecidableEq

/-- `ToolbarView.fillFromConfig` over a component factory abstracted by its
`has` predicate.  `config.reverse()` reverses the caller's array in place
and returns it; `.map` then walks the reversed array, adding the view
created for each entry at index `0` of `items` (modelled by `cons`) and
skipping unknown names with a console warning.  Returns the pair of the
caller's array as left after the call and the resulting `items`. -/
def fillFromConfig (config : List String) (has : String → Bool) :
    List String × List ConfigView :=
  (config.reverse,
   config.reverse.foldl
     (fun items name =>
       if name = "|" then ConfigView.separator :: items
       else if has name then ConfigView.component name :: items
       else items)
     [])

/-- The view created for a single config entry, in the order the source
checks: the `"|"` separator first, then the factory. -/
def configView (has : String → Bool) (name : String) : Option ConfigView :=
  if name = "|" then some ConfigView.separator
  else if has name then some (ConfigView.component name)
  else none

lemma fillFromConfig_foldl (has : String → Bool) :
    ∀ (l : List String) (acc : List ConfigView),
      l.foldl
        (fun items name =>
          if name = "|" then ConfigView.separator :: items
          else if has name then ConfigView.component name :: items
          else items)
        acc
      = (l.filterMap (configView has)).reverse ++ acc := by
  intro l
  induction l with
  | nil => intro acc; simp
  | cons n t ih =>
    intro acc
    simp only [List.foldl_cons, List.filterMap_cons]
    by_cases h1 : n = "|"
    · simp [configView, h1, ih]
    · by_cases h2 : has n = true
      · simp [configView, h1, h2, ih]
      · have h3 : has n = false := by simpa using h2
        simp [configView, h1, h3, ih]

/-!
`utils.compareArrays` (src/unnamed/part_000 lines 134-155) and its result
flags SAME = 0, PREFIX = 1, DIFFERENT = 2 (lines 163-175).
-/

/-- Result of `utils.compareArrays`: `same`, `pre` and `different` stand
for the numeric flags `SAME = 0`, `PREFIX = 1` and `DIFFERENT = 2` of the
source (the original all-caps flag names are not usable as Lean
constructors here). -/
inductive ArrayCompareResult where
  | same
  | pre
  | different
deriving DecidableEq

/-- `utils.compareArrays( a, b )`: walk both arrays up to the shorter
length and answer DIFFERENT at the first mismatch; when the common part
matches, answer SAME for equal lengths, PREFIX when `a` is shorter, and
DIFFERENT otherwise.  The index loop plus the final length comparison of
the source is expressed as structural recursion on both lists; the `[]`
versus `[]`, `[]` versus `cons`, and `cons` versus `[]` cases are exactly
the three outcomes of the length comparison once the loop found no
mismatch. -/
def compareArrays {β : Type} [DecidableEq β] : List β → List β → ArrayCompareResult
  | [], [] => ArrayCompareResult.same
  | [], _ :: _ => ArrayCompareResult.pre
  | _ :: _, [] => ArrayCompareResult.different
  | a :: as, b :: bs =>
    if a = b then compareArrays as bs else ArrayCompareResult.different

lemma compareArrays_spec {β : Type} [DecidableEq β] :
    ∀ (a b : List β),
      (compareArrays a b = ArrayCompareResult.same ↔ a = b) ∧
      (compareArrays a b = ArrayCompareResult.pre ↔
        a <+: b ∧ a.length < b.length) ∧
      (compareArrays a b = ArrayCompareResult.different ↔
        ¬ a = b ∧ ¬ (a <+: b ∧ a.length < b.length)) := by
  intro a
  induction a with
  | nil =>
    intro b
    cases b with
    | nil => simp [compareArrays]
    | cons y bs => simp [compareArrays]
  | cons x as ih =>
    intro b
    cases b with
    | nil => simp [compareArrays]
    | cons y bs =>
      by_cases hxy : x = y
      · subst hxy
        have hstep : compareArrays (x :: as) (x :: bs) = compareArrays as bs := by
          simp [compareArrays]
        have h := ih bs
        rw [hstep]
        refine ⟨?_, ?_, ?_⟩
        · rw [h.1]
          simp
        · rw [h.2.1]
          simp [List.cons_prefix_cons]
        · rw [h.2.2]
          simp [List.cons_prefix_cons]
      · simp [compareArrays, hxy, List.cons_prefix_cons]

/-!
The claims.
-/

/-- C1: for a `shouldGroupWhenFull` toolbar whose element is attached to the
document (`attached = true`) and with no update already in progress
(`updateLock = false`), when `updateGrouping` returns the ungrouped items no
longer overflow the single toolbar row: `areItemsOverflowing` is `false`,
every overflowing item having been moved into `groupedItems`. -/
theorem updateGrouping_resolves_overflow (g : Geometry α) (s : ToolbarState α)
    (h : s.updateLock = false) :
    areItemsOverflowing g (updateGrouping g true s) = false :=
  updateGrouping_overflow_false g s h

theorem updateGrouping_resolves_overflow_witness :
    sFour.updateLock = false ∧
    areItemsOverflowing gWide (updateGrouping gWide true sFour) = false :=
  ⟨rfl, updateGrouping_resolves_overflow gWide sFour rfl⟩

/-- C2: when `items` equals `ungroupedItems ++ groupedItems` element for
element and in order, that partition is preserved by adding an item to
`items` at any valid index, by removing any item from `items` (the `items`
collection holds pairwise distinct views), by `groupLastItem`, and by
`ungroupFirstItem`. -/
theorem partition_invariant [DecidableEq α] (g : Geometry α) (attached : Bool)
    (s : ToolbarState α) (x : α) (index : Nat) (hp : Partition s) :
    (index ≤ s.items.length → Partition (onItemAdded g attached x index s)) ∧
    (s.items.Nodup → Partition (onItemRemoved g attached x s)) ∧
    Partition (groupLastItem s) ∧
    Partition (ungroupFirstItem s) :=
  ⟨fun _ => partition_onItemAdded g attached x index hp,
   fun hnd => partition_onItemRemoved g attached x hp hnd,
   partition_groupLastItem hp,
   partition_ungroupFirstItem hp⟩

theorem partition_invariant_witness :
    Partition sMixed ∧
    Partition (onItemAdded gWide true 9 1 sMixed) ∧
    Partition (onItemRemoved gWide true 9 sMixed) ∧
    Partition (groupLastItem sMixed) ∧
    Partition (ungroupFirstItem sMixed) :=
  ⟨rfl,
   (partition_invariant gWide true sMixed 9 1 rfl).1 (by decide),
   (partition_invariant gWide true sMixed 9 1 rfl).2.1 (by decide),
   (partition_invariant gWide true sMixed 9 1 rfl).2.2.1,
   (partition_invariant gWide true sMixed 9 1 rfl).2.2.2⟩

/-- C3: a call to `updateGrouping` made while another update is in progress
(`updateLock` set) or while the toolbar element is detached from the
document body returns immediately, leaving the whole state, in particular
`ungroupedItems`, `groupedItems` and `_components`, unchanged. -/
theorem updateGrouping_guard_noop (g : Geometry α) (attached : Bool)
    (s : ToolbarState α) (h : s.updateLock = true ∨ attached = false) :
    updateGrouping g attached s = s := by
  rcases h with h | h
  · simp [updateGrouping, h]
  · subst h
    cases hl : s.updateLock <;> simp [updateGrouping, hl]

theorem updateGrouping_guard_noop_witness :
    (sLocked.updateLock = true ∨ (true : Bool) = false) ∧
    updateGrouping gWide true sLocked = sLocked :=
  ⟨Or.inl rfl, updateGrouping_guard_noop gWide true sLocked (Or.inl rfl)⟩

/-- C4: in an unlocked, attached invocation of `updateGrouping`, the
ungrouping phase runs only when no item was grouped during that same
invocation (the `wereItemsGrouped` flag, the second component of
`groupLoop`, is `false`) and `groupedItems` is nonempty; it then runs
`ungroupLoop`, which repeatedly moves the first grouped item back while
`groupedItems` is nonempty and no overflow occurs, followed by exactly one
`groupLastItem` when the final ungrouping caused an overflow, so the
invocation never ends with more ungrouped items than fit. -/
theorem updateGrouping_phases (g : Geometry α) (s : ToolbarState α)
    (h : s.updateLock = false) (s₁ : ToolbarState α) (b : Bool)
    (hgl : groupLoop g { s with updateLock := true } = (s₁, b)) :
    (b = true → updateGrouping g true s = { s₁ with updateLock := false }) ∧
    (b = false → s₁.groupedItems = [] →
      updateGrouping g true s = { s₁ with updateLock := false }) ∧
    (b = false → s₁.groupedItems ≠ [] →
      updateGrouping g true s =
        { (if areItemsOverflowing g (ungroupLoop g s₁)
             then groupLastItem (ungroupLoop g s₁)
             else ungroupLoop g s₁) with updateLock := false }) ∧
    areItemsOverflowing g (updateGrouping g true s) = false := by
  refine ⟨?_, ?_, ?_, updateGrouping_overflow_false g s h⟩
  · intro hb
    rw [updateGrouping_unfold g s h, hgl]
    subst hb
    simp
  · intro hb hge
    rw [updateGrouping_unfold g s h, hgl]
    subst hb
    simp [hge]
  · intro hb hge
    rw [updateGrouping_unfold g s h, hgl]
    subst hb
    have hne : s₁.groupedItems.isEmpty = false := by simpa using hge
    simp [hne]

/-- The state `groupLoop` reaches from `sFour` under `gWide`: two items
grouped, the separator/dropdown pair added, and the grouped-items dropdown
not yet in the focus-cycleable collection refreshed at the last
`ungroupedItems` removal. -/
def sFourGrouped : ToolbarState Nat :=
  { items := [1, 2, 3, 4]
    ungroupedItems := [1, 2]
    groupedItems := [3, 4]
    components := [Component.itemsView, Component.separator, Component.dropdown]
    focusCycleables := [Focusable.item 1, Focusable.item 2, Focusable.dropdown]
    updateLock := true }

theorem updateGrouping_phases_witness :
    sFour.updateLock = false ∧
    groupLoop gWide { sFour with updateLock := true } = (sFourGrouped, true) ∧
    updateGrouping gWide true sFour = { sFourGrouped with updateLock := false } :=
  ⟨rfl, by decide,
   (updateGrouping_phases gWide sFour rfl sFourGrouped true (by decide)).1 rfl⟩

/-- C5 counterexample: starting from the fresh toolbar, adding item `0`
under a geometry that always overflows groups it (separator and dropdown
enter `_components`), and then removing `0` from `items` empties
`groupedItems` through the `remove` listener, which never touches
`_components`; the separator and dropdown remain in `_components` with
`groupedItems` empty, so the claimed if-and-only-if invariant fails in a
reachable state. -/
theorem dropdown_left_behind :
    (onItemRemoved gEverFull true 0
        (onItemAdded gEverFull true 0 0 (initialState : ToolbarState Nat))).groupedItems
      = [] ∧
    (onItemRemoved gEverFull true 0
        (onItemAdded gEverFull true 0 0 (initialState : ToolbarState Nat))).components
      = [Component.itemsView, Component.separator, Component.dropdown] ∧
    ¬ DropdownInv (onItemRemoved gEverFull true 0
        (onItemAdded gEverFull true 0 0 (initialState : ToolbarState Nat))) :=
  ⟨by decide, by decide,
   fun h => absurd (by rw [DropdownInv] at h; exact h) (by decide)⟩

/-- C5 (amended): the grouped-items dropdown, immediately preceded by the
separator, is present in `_components` if and only if `groupedItems` is
nonempty, in the initial state and after `groupLastItem` (which inserts
both exactly when grouping the first item), `ungroupFirstItem` (which
removes both exactly when ungrouping the last grouped item), any item
addition, and any item removal other than the removal from `items` of the
sole grouped item, which leaves the separator and dropdown in `_components`
while `groupedItems` becomes empty. -/
theorem dropdown_presence_preserved [DecidableEq α] (g : Geometry α)
    (attached : Bool) (s : ToolbarState α) (x : α) (index : Nat)
    (h : DropdownInv s) :
    DropdownInv (initialState : ToolbarState α) ∧
    DropdownInv (groupLastItem s) ∧
    DropdownInv (ungroupFirstItem s) ∧
    DropdownInv (onItemAdded g attached x index s) ∧
    (s.groupedItems ≠ [x] → DropdownInv (onItemRemoved g attached x s)) :=
  ⟨dropdownInv_initial,
   dropdownInv_groupLastItem h,
   dropdownInv_ungroupFirstItem h,
   dropdownInv_onItemAdded g attached x index h,
   fun hne => dropdownInv_onItemRemoved g attached x h hne⟩

theorem dropdown_presence_preserved_witness :
    DropdownInv sMixed ∧
    DropdownInv (initialState : ToolbarState Nat) ∧
    DropdownInv (groupLastItem sMixed) ∧
    DropdownInv (ungroupFirstItem sMixed) ∧
    DropdownInv (onItemAdded gWide true 9 1 sMixed) ∧
    DropdownInv (onItemRemoved gWide true 9 sMixed) :=
  ⟨rfl,
   (dropdown_presence_preserved gWide true sMixed 9 1 rfl).1,
   (dropdown_presence_preserved gWide true sMixed 9 1 rfl).2.1,
   (dropdown_presence_preserved gWide true sMixed 9 1 rfl).2.2.1,
   (dropdown_presence_preserved gWide true sMixed 9 1 rfl).2.2.2.1,
   (dropdown_presence_preserved gWide true sMixed 9 1 rfl).2.2.2.2 (by decide)⟩

/-- C6: on any toolbar state with nonempty `groupedItems` and the
`_components` shape every reachable state has, `ungroupFirstItem` followed
by `groupLastItem` restores `ungroupedItems`, `groupedItems` and
`_components` exactly: the "undo the last ungroup" step of `updateGrouping`
is an exact inverse on those collections. -/
theorem ungroup_then_group_roundtrip (s : ToolbarState α)
    (hg : s.groupedItems ≠ []) (hinv : DropdownInv s) :
    (groupLastItem (ungroupFirstItem s)).ungroupedItems = s.ungroupedItems ∧
    (groupLastItem (ungroupFirstItem s)).groupedItems = s.groupedItems ∧
    (groupLastItem (ungroupFirstItem s)).components = s.components := by
  cases hgr : s.groupedItems with
  | nil => exact absurd hgr hg
  | cons x rest =>
    obtain ⟨hu, hgc⟩ := roundtrip_core hgr
    refine ⟨hu, hgc.trans hgr, ?_⟩
    have h1 := ungroupFirstItem_eq hgr
    have hl : (ungroupFirstItem s).ungroupedItems.getLast? = some x := by
      rw [h1]; simp
    have h2 := groupLastItem_eq hl
    rw [DropdownInv, hgr] at hinv
    simp only [List.isEmpty_cons, if_false, Bool.false_eq_true] at hinv
    cases hrest : rest with
    | nil =>
      rw [h2, h1]
      simp only [hrest, List.isEmpty_nil, if_pos, if_true]
      rw [hinv]
      simp
    | cons y t =>
      rw [h2, h1]
      simp [hrest, hinv]

theorem ungroup_then_group_roundtrip_witness :
    sMixed.groupedItems ≠ [] ∧ DropdownInv sMixed ∧
    ((groupLastItem (ungroupFirstItem sMixed)).ungroupedItems
        = sMixed.ungroupedItems ∧
      (groupLastItem (ungroupFirstItem sMixed)).groupedItems
        = sMixed.groupedItems ∧
      (groupLastItem (ungroupFirstItem sMixed)).components
        = sMixed.components) :=
  ⟨by decide, rfl, ungroup_then_group_roundtrip sMixed (by decide) rfl⟩

/-- C7: immediately after every addition to or removal from
`ungroupedItems` or `_components` (each of which runs
`_updateFocusCycleableItems`), the focus-cycleable collection equals
exactly the elements of `ungroupedItems` in order, followed by the
grouped-items dropdown if and only if `groupedItems` is nonempty at that
instant. -/
theorem focus_cycleables_synced [DecidableEq α] (s : ToolbarState α) (x : α)
    (c : Component) (index : Nat) :
    FocusSynced (ungroupedInsert x index s) ∧
    FocusSynced (ungroupedAppend x s) ∧
    FocusSynced (ungroupedErase x s) ∧
    FocusSynced (ungroupedRemoveLast s) ∧
    FocusSynced (componentsAdd c s) ∧
    FocusSynced (componentsRemove c s) ∧
    FocusSynced (componentsRemoveLast s) :=
  ⟨rfl, rfl, rfl, rfl, rfl, rfl, rfl⟩

/-- C8 counterexample: with observed entry widths `0, 0`, the callback
invokes `updateGrouping` for the first entry and records width `0`, and
then invokes it again for the second entry although its width equals the
recorded width, because the `!previousWidth` falsiness test treats the
recorded `0` like "no width recorded". -/
theorem resize_zero_width_counterexample :
    processEntries none [0, 0] = [true, true] ∧
    resizeStep (some 0) 0 = (some 0, true) :=
  ⟨by decide, by decide⟩

/-- C8 (amended): the resize handler invokes `updateGrouping` for the first
entry; afterwards it skips an entry exactly when the recorded width is
nonzero and equal to the entry's width, so it still invokes
`updateGrouping` for every entry whose width differs from the recorded one,
and also for entries equal to a recorded width of `0`. -/
theorem resize_handler_invocation (previousWidth : Option Nat) (w : Nat)
    (ws : List Nat) :
    ((resizeStep previousWidth w).2 = false ↔
      previousWidth = some w ∧ w ≠ 0) ∧
    (processEntries none (w :: ws)).head? = some true := by
  constructor
  · rcases previousWidth with _ | p
    · simp [resizeStep]
    · by_cases hp : p = 0
      · subst hp
        have hstep : resizeStep (some 0) w = (some w, true) := by
          simp [resizeStep]
        rw [hstep]
        constructor
        · intro habs
          exact absurd habs (by simp)
        · rintro ⟨hw, hne⟩
          exact absurd (Option.some_inj.mp hw).symm hne
      · by_cases hw : p = w
        · subst hw
          simp [resizeStep, hp]
        · simp [resizeStep, hp, hw]
  · simp [processEntries, resizeStep]

/-- C9: `fillFromConfig` mutates its config argument, the caller's array
being reversed in place by `Array.prototype.reverse`, while the resulting
`items` collection lists the created views in the original config order,
each created view having been inserted at index `0` of `items`. -/
theorem fillFromConfig_spec (config : List String) (has : String → Bool) :
    fillFromConfig config has =
      (config.reverse, config.filterMap (configView has)) := by
  rw [fillFromConfig, fillFromConfig_foldl has]
  rw [List.filterMap_reverse, List.reverse_reverse, List.append_nil]

/-- C10: `utils.compareArrays( a, b )` returns SAME (`same`) exactly when
the arrays are equal, PREFIX (`pre`) exactly when `a` is a strictly
shorter prefix of `b`, and DIFFERENT (`different`) in every other case; in
particular it returns DIFFERENT, not PREFIX, when `b` is a proper prefix
of `a`, so the relation is not symmetric. -/
theorem compareArrays_characterization (a b : List Nat) :
    (compareArrays a b = ArrayCompareResult.same ↔ a = b) ∧
    (compareArrays a b = ArrayCompareResult.pre ↔
      a <+: b ∧ a.length < b.length) ∧
    (compareArrays a b = ArrayCompareResult.different ↔
      ¬ a = b ∧ ¬ (a <+: b ∧ a.length < b.length)) ∧
    (b <+: a ∧ b.length < a.length →
      compareArrays a b = ArrayCompareResult.different) := by
  obtain ⟨h1, h2, h3⟩ := compareArrays_spec a b
  refine ⟨h1, h2, h3, ?_⟩
  rintro ⟨⟨t, rfl⟩, hlen⟩
  rw [h3]
  constructor
  · intro habs
    have := congrArg List.length habs
    simp only [List.length_append] at this hlen
    omega
  · rintro ⟨_, hlt⟩
    simp only [List.length_append] at hlt hlen
    omega

end CKEditorUI

